/-
Verification of the pysui signing/BCS core.

Shallow embedding of `pysui/sui/sui_crypto.py` and `pysui/sui/sui_types/bcs.py`.
Bytes are modelled as `List Nat` (each element < 256 where it matters),
Python strings as `List Char`, and Python exceptions as an explicit `PyErr`
error value returned through `Except`.  External cryptographic primitives
(the nacl / ecdsa / secp256k1 signing back-ends, public-key derivation and
SHA3-256) are taken as explicit function parameters, so every theorem about
code that calls them quantifies over the primitive.
-/
import Mathlib

namespace PysuiModel

/-- Python exceptions (and pysui exception classes) raised by the embedded
code.  `SuiInvalidKeystringLength` carries the offending string length, as the
source passes `len(keystring)` to the exception constructor. -/
inductive PyErr where
  | ValueError : PyErr
  | IndexError : PyErr
  | ZeroDivisionError : PyErr
  | NameError : PyErr
  | NotImplementedError : PyErr
  | OverflowError : PyErr
  | BinasciiError : PyErr
  | SuiInvalidKeyPair : PyErr
  | SuiInvalidKeystringLength : Nat → PyErr
  | TruncatedDataError : PyErr
  deriving DecidableEq, Repr

/-- View of an `Except` value as a sum, to transport decidable equality. -/
def exceptView {ε α : Type} : Except ε α → ε ⊕ α
  | .error e => Sum.inl e
  | .ok a => Sum.inr a

theorem exceptView_inj {ε α : Type} (x y : Except ε α)
    (h : exceptView x = exceptView y) : x = y := by
  cases x <;> cases y <;> simp [exceptView] at h <;> simp [h]

instance exceptDecEq {ε α : Type} [DecidableEq ε] [DecidableEq α] :
    DecidableEq (Except ε α) := fun x y =>
  decidable_of_iff (exceptView x = exceptView y)
    ⟨exceptView_inj x y, fun h => by rw [h]⟩

/-- Modelled from the spec: `SignatureScheme` lives in `pysui.abstracts`,
outside `src/`.  Spec §3: closed enum {ED25519=0, SECP256K1=1, SECP256R1=2,
MULTISIG=3}; the tag byte is fixed across the wire format. -/
inductive SignatureScheme where
  | ED25519 : SignatureScheme
  | SECP256K1 : SignatureScheme
  | SECP256R1 : SignatureScheme
  | MULTISIG : SignatureScheme
  deriving DecidableEq, Repr

/-- The wire tag byte of each scheme (the `IntEnum` value in the source). -/
def SignatureScheme.value : SignatureScheme → Nat
  | .ED25519 => 0
  | .SECP256K1 => 1
  | .SECP256R1 => 2
  | .MULTISIG => 3

/-- `n.to_bytes(w, "little")` for an unsigned Python int: `w` little-endian
bytes.  (The callers below check the `OverflowError` case separately.) -/
def toLEBytes : Nat → Nat → List Nat
  | 0, _ => []
  | w + 1, n => n % 256 :: toLEBytes w (n / 256)

/-- `int.to_bytes(1, "little")`: Python raises `OverflowError` when the value
does not fit in the requested width. -/
def toBytes1 (n : Nat) : Except PyErr (List Nat) :=
  if n < 256 then .ok [n] else .error .OverflowError

/-- `int.from_bytes(bs, "little")`. -/
def intFromLEBytes (bs : List Nat) : Nat :=
  bs.foldr (fun b acc => b + acc * 256) 0

/-- One lowercase hex digit (used by `binascii.hexlify`): codepoints 48-57
for 0-9, 97-102 for a-f. -/
def hexDigit (n : Nat) : Char :=
  Char.ofNat (if n < 10 then 48 + n else 87 + n)

/-- `binascii.hexlify`: two lowercase hex digits per byte. -/
def hexlify (bs : List Nat) : List Char :=
  bs.flatMap (fun b => [hexDigit (b / 16), hexDigit (b % 16)])

/-! ## Base64 (Python `base64.b64encode` / `base64.b64decode`) -/

/-- The standard-alphabet character of a 6-bit group: uppercase letters for
0-25, lowercase for 26-51, digits for 52-61, then plus and slash. -/
def encChar (n : Nat) : Char :=
  Char.ofNat
    (if n < 26 then 65 + n
     else if n < 52 then 71 + n
     else if n < 62 then n - 4
     else if n = 62 then 43
     else 47)

/-- The 6-bit value of a standard-alphabet character (`none` off the
alphabet). -/
def decChar (c : Char) : Option Nat :=
  if 65 ≤ c.toNat ∧ c.toNat ≤ 90 then some (c.toNat - 65)
  else if 97 ≤ c.toNat ∧ c.toNat ≤ 122 then some (c.toNat - 71)
  else if 48 ≤ c.toNat ∧ c.toNat ≤ 57 then some (c.toNat + 4)
  else if c.toNat = 43 then some 62
  else if c.toNat = 47 then some 63
  else none

/-- `base64.b64encode` over byte lists: 3 bytes to 4 characters, with `=`
padding on a final 1- or 2-byte group. -/
def b64encode : List Nat → List Char
  | [] => []
  | [a] => [encChar (a / 4), encChar (a % 4 * 16), '=', '=']
  | [a, b] => [encChar (a / 4), encChar (a % 4 * 16 + b / 16), encChar (b % 16 * 4), '=']
  | a :: b :: c :: rest =>
      encChar (a / 4) :: encChar (a % 4 * 16 + b / 16) ::
      encChar (b % 16 * 4 + c / 64) :: encChar (c % 64) :: b64encode rest

/-- `base64.b64decode` on well-formed standard base64 text (4-character
groups, `=` padding only at the end); malformed input gives `none`
(`binascii.Error`). -/
def b64decode : List Char → Option (List Nat)
  | [] => some []
  | c1 :: c2 :: c3 :: c4 :: rest =>
      match decChar c1, decChar c2 with
      | some d1, some d2 =>
        if c3 = '=' then
          if c4 = '=' ∧ rest = [] then some [d1 * 4 + d2 / 16] else none
        else
          match decChar c3 with
          | some d3 =>
            if c4 = '=' then
              if rest = [] then some [d1 * 4 + d2 / 16, d2 % 16 * 16 + d3 / 4] else none
            else
              match decChar c4 with
              | some d4 =>
                  (b64decode rest).map
                    (fun tail =>
                      (d1 * 4 + d2 / 16) :: (d2 % 16 * 16 + d3 / 4) ::
                      (d3 % 4 * 64 + d4) :: tail)
              | none => none
          | none => none
      | _, _ => none
  | _ => none

theorem decChar_encChar : ∀ n : Nat, n < 64 → decChar (encChar n) = some n := by
  decide

theorem encChar_ne_pad : ∀ n : Nat, n < 64 → encChar n ≠ '=' := by
  decide

theorem b64encode_length (bs : List Nat) :
    (b64encode bs).length = (bs.length + 2) / 3 * 4 := by
  induction bs using b64encode.induct with
  | case1 => simp [b64encode]
  | case2 a => simp [b64encode]
  | case3 a b => simp [b64encode]
  | case4 a b c rest ih =>
      simp only [b64encode, List.length_cons, ih]
      omega

/-- Decoding inverts encoding on genuine byte lists. -/
theorem b64decode_b64encode (bs : List Nat) (hb : ∀ x ∈ bs, x < 256) :
    b64decode (b64encode bs) = some bs := by
  induction bs using b64encode.induct with
  | case1 => rfl
  | case2 a =>
      have ha : a < 256 := hb a (by simp)
      have h1 : a / 4 < 64 := by omega
      have h2 : a % 4 * 16 < 64 := by omega
      simp [b64encode, b64decode, decChar_encChar _ h1, decChar_encChar _ h2]
      all_goals omega
  | case3 a b =>
      have ha : a < 256 := hb a (by simp)
      have hbb : b < 256 := hb b (by simp)
      have h1 : a / 4 < 64 := by omega
      have h2 : a % 4 * 16 + b / 16 < 64 := by omega
      have h3 : b % 16 * 4 < 64 := by omega
      simp [b64encode, b64decode, decChar_encChar _ h1, decChar_encChar _ h2,
        decChar_encChar _ h3, encChar_ne_pad _ h3]
      all_goals omega
  | case4 a b c rest ih =>
      have ha : a < 256 := hb a (by simp)
      have hbb : b < 256 := hb b (by simp)
      have hc : c < 256 := hb c (by simp)
      have hrest : ∀ x ∈ rest, x < 256 := fun x hx => hb x (by simp [hx])
      have h1 : a / 4 < 64 := by omega
      have h2 : a % 4 * 16 + b / 16 < 64 := by omega
      have h3 : b % 16 * 4 + c / 64 < 64 := by omega
      have h4 : c % 64 < 64 := by omega
      simp [b64encode, b64decode, decChar_encChar _ h1, decChar_encChar _ h2,
        decChar_encChar _ h3, decChar_encChar _ h4, encChar_ne_pad _ h3,
        encChar_ne_pad _ h4, ih hrest]
      all_goals omega

/-! ## BCS schema layer (`pysui/sui/sui_types/bcs.py`)

The generic codec is the external `canoser` library; its encoding rules are
modelled from the spec (§4.1): structs concatenate field encodings in declared
order, fixed arrays declared with `encode_len=False` contribute raw element
bytes, `Uint64` is 8 little-endian bytes, and a `RustOptional` is a 2-variant
tagged union (one byte 0 = absent, 1 = present followed by the payload). -/

/-- `BCSAddress`: field `("Address", ArrayT(Uint8, 32, False))` — a fixed
32-byte array encoded without a length prefix. -/
def encodeBCSAddress (address : List Nat) : List Nat := address

/-- `canoser.Uint64` encoding: 8 little-endian bytes. -/
def encodeUint64 (n : Nat) : List Nat := toLEBytes 8 n

/-- `BCSOptionalU64` (`canoser.RustOptional` with `_type = Uint64`):
byte 0 when absent, byte 1 followed by the `Uint64` encoding when present. -/
def encodeBCSOptionalU64 : Option Nat → List Nat
  | none => [0]
  | some v => 1 :: encodeUint64 v

/-- `BCSTransferSui`: fields `[("recipient", BCSAddress), ("amount",
BCSOptionalU64)]`, encoded as the concatenation of the two field encodings. -/
def encodeBCSTransferSui (recipient : List Nat) (amount : Option Nat) : List Nat :=
  encodeBCSAddress recipient ++ encodeBCSOptionalU64 amount

/-- `BCSSingleTransaction._enums`: the nine declared variants, each with the
name of its payload class (`none` for the payload-free variants). -/
def bcsSingleTransactionEnums : List (String × Option String) :=
  [("TransferObject", some "BCSTransferObject"),
   ("Publish", some "BCSPublish"),
   ("Call", some "BCSMoveCall"),
   ("TransferSui", some "BCSTransferSui"),
   ("Pay", some "BCSPay"),
   ("PaySui", some "BCSPaySui"),
   ("PayAllSui", some "BCSPayAllSui"),
   ("ChangeEpoch", none),
   ("Genesis", none)]

/-- `TransactionData._enums`: the single declared variant. -/
def transactionDataEnums : List (String × Option String) :=
  [("V1", some "TransactionDataV1")]

/-- `variant_for_index` (identical bodies on `BCSSingleTransaction` and
`TransactionData`): raise `IndexError` when `index > len(cls._enums)`,
otherwise return `cls._enums[index]` — where Python list indexing itself
raises `IndexError` at `index == len(cls._enums)`. -/
def variantForIndex (enums : List (String × Option String)) (index : Nat) :
    Except PyErr (String × Option String) :=
  if enums.length < index then .error .IndexError
  else
    match enums[index]? with
    | some v => .ok v
    | none => .error .IndexError

/-! ## `Pure` call-argument decoding -/

/-- A decoded `Pure` instance: the raw `Data` byte list plus the attributes
set by `post_deser` (`count` always, `values` only when the even-division
check passes). -/
structure PureInst where
  Data : List Nat
  count : Nat
  values : Option (List Nat)
  deriving DecidableEq, Repr

/-- The loop in `Pure.post_deser`: `counter` iterations of
`results.append(int.from_bytes(darray[0:dlen-1], "little"));
darray = darray[0:dlen-1]`. -/
def pureLoop : Nat → Nat → List Nat → List Nat
  | 0, _, _ => []
  | k + 1, dlen, darray =>
      intFromLEBytes (darray.take (dlen - 1)) ::
      pureLoop k dlen (darray.take (dlen - 1))

/-- `Pure.post_deser`: pop the leading count byte (IndexError on an empty
list), compute `len(darray) % counter` — a `ZeroDivisionError` when the count
byte is 0 — and, when the division is even, rebuild `values` with the loop. -/
def purePostDeser (data : List Nat) : Except PyErr (Nat × Option (List Nat)) :=
  match data with
  | [] => .error .IndexError
  | counter :: darray =>
      if counter = 0 then .error .ZeroDivisionError
      else
        if darray.length % counter = 0 then
          .ok (counter, some (pureLoop counter (darray.length / counter) darray))
        else
          .ok (counter, none)

/-- Modelled from the spec: ULEB128 decoding of a sequence length (§4.1,
"base-128 continuation-bit encoding"), as the `canoser` cursor performs for a
`[Uint8]` field. -/
def decodeUleb : List Nat → Option (Nat × List Nat)
  | [] => none
  | b :: rest =>
      if b < 128 then some (b, rest)
      else (decodeUleb rest).map (fun p => (b % 128 + p.1 * 128, p.2))

/-- `Pure.decode`: `canoser` struct decoding of the single `[Uint8]` field
(ULEB128 count, then that many raw bytes) followed by `post_deser`; returns
the instance and the unconsumed cursor remainder. -/
def pureDecode (input : List Nat) : Except PyErr (PureInst × List Nat) :=
  match decodeUleb input with
  | none => .error .TruncatedDataError
  | some (n, rest) =>
      if rest.length < n then .error .TruncatedDataError
      else
        match purePostDeser (rest.take n) with
        | .error e => .error e
        | .ok (count, values) =>
            .ok (⟨rest.take n, count, values⟩, rest.drop n)

/-! ## KeyPair & signing core (`pysui/sui/sui_crypto.py`) -/

/-- Modelled from the spec: the length constants come from
`pysui.sui.sui_constants`, which is outside `src/`.  Spec §4.3 and §6: every
scheme has a 32-byte private key; the keystring is
`base64(scheme tag ∥ private key bytes)`, i.e. base64 of 33 bytes, which is
44 characters. -/
def SUI_KEYPAIR_LEN : Nat := 44

/-- Modelled from the spec (§4.3 table): ED25519 private-key length. -/
def ED25519_PRIVATEKEY_BYTES_LEN : Nat := 32

/-- Modelled from the spec (§4.3 table): ED25519 public-key length. -/
def ED25519_PUBLICKEY_BYTES_LEN : Nat := 32

/-- Modelled from the spec: `from_bytes` receives the keystring bytes after
the tag, `1 + priv_len` total decoded (§4.3), so 32 bytes. -/
def ED25519_KEYPAIR_BYTES_LEN : Nat := 32

/-- Modelled from the spec (§4.3 table): SECP256K1 private-key length. -/
def SECP256K1_PRIVATEKEY_BYTES_LEN : Nat := 32

/-- Modelled from the spec (§4.3 table): SECP256K1 compressed public key. -/
def SECP256K1_PUBLICKEY_BYTES_LEN : Nat := 33

/-- Modelled from the spec: keystring bytes after the tag, 32 bytes. -/
def SECP256K1_KEYPAIR_BYTES_LEN : Nat := 32

/-- Modelled from the spec (§4.3 table): SECP256R1 private-key length. -/
def SECP256R1_PRIVATEKEY_BYTES_LEN : Nat := 32

/-- Modelled from the spec (§4.3 table): SECP256R1 compressed public key. -/
def SECP256R1_PUBLICKEY_BYTES_LEN : Nat := 33

/-- Modelled from the spec: keystring bytes after the tag, 32 bytes. -/
def SECP256R1_KEYPAIR_BYTES_LEN : Nat := 32

/-- The external public-key derivation primitive (nacl `verify_key`,
`ecdsa.get_verifying_key().to_string("compressed")`,
`secp256k1 pubkey.serialize(compressed=True)`), abstracted as a function from
scheme and private-key bytes to public-key bytes. -/
def DerivePub : Type := SignatureScheme → List Nat → List Nat

/-- The external signing primitive of each scheme (nacl / ecdsa / secp256k1),
abstracted as a function of scheme, private-key bytes and message bytes. -/
def SigAlg : Type := SignatureScheme → List Nat → List Nat → List Nat

/-- A `SuiKeyPair`: scheme plus private and public key bytes.  The source only
ever builds one through a per-scheme constructor that derives the public key
from the private key. -/
structure SuiKeyPair where
  scheme : SignatureScheme
  privKeyBytes : List Nat
  pubKeyBytes : List Nat
  deriving DecidableEq, Repr

/-- `SuiKeyPairED25519.__init__`: the private-key constructor checks the
32-byte length (`SuiInvalidKeyPair` otherwise), the public key is derived from
the private key, and the public-key constructor checks its 32-byte length. -/
def suiKeyPairED25519 (dp : DerivePub) (secret_bytes : List Nat) :
    Except PyErr SuiKeyPair :=
  if secret_bytes.length = ED25519_PRIVATEKEY_BYTES_LEN then
    if (dp .ED25519 secret_bytes).length = ED25519_PUBLICKEY_BYTES_LEN then
      .ok ⟨.ED25519, secret_bytes, dp .ED25519 secret_bytes⟩
    else .error .SuiInvalidKeyPair
  else .error .SuiInvalidKeyPair

/-- `SuiKeyPairSECP256K1.__init__` (same shape, 33-byte compressed public
key). -/
def suiKeyPairSECP256K1 (dp : DerivePub) (secret_bytes : List Nat) :
    Except PyErr SuiKeyPair :=
  if secret_bytes.length = SECP256K1_PRIVATEKEY_BYTES_LEN then
    if (dp .SECP256K1 secret_bytes).length = SECP256K1_PUBLICKEY_BYTES_LEN then
      .ok ⟨.SECP256K1, secret_bytes, dp .SECP256K1 secret_bytes⟩
    else .error .SuiInvalidKeyPair
  else .error .SuiInvalidKeyPair

/-- `SuiKeyPairSECP256R1.__init__` (same shape, 33-byte compressed public
key). -/
def suiKeyPairSECP256R1 (dp : DerivePub) (secret_bytes : List Nat) :
    Except PyErr SuiKeyPair :=
  if secret_bytes.length = SECP256R1_PRIVATEKEY_BYTES_LEN then
    if (dp .SECP256R1 secret_bytes).length = SECP256R1_PUBLICKEY_BYTES_LEN then
      .ok ⟨.SECP256R1, secret_bytes, dp .SECP256R1 secret_bytes⟩
    else .error .SuiInvalidKeyPair
  else .error .SuiInvalidKeyPair

/-- `SuiKeyPairED25519.from_bytes`. -/
def suiKeyPairED25519FromBytes (dp : DerivePub) (indata : List Nat) :
    Except PyErr SuiKeyPair :=
  if indata.length = ED25519_KEYPAIR_BYTES_LEN then suiKeyPairED25519 dp indata
  else .error .SuiInvalidKeyPair

/-- `SuiKeyPairSECP256K1.from_bytes`. -/
def suiKeyPairSECP256K1FromBytes (dp : DerivePub) (indata : List Nat) :
    Except PyErr SuiKeyPair :=
  if indata.length = SECP256K1_KEYPAIR_BYTES_LEN then suiKeyPairSECP256K1 dp indata
  else .error .SuiInvalidKeyPair

/-- `SuiKeyPairSECP256R1.from_bytes`. -/
def suiKeyPairSECP256R1FromBytes (dp : DerivePub) (indata : List Nat) :
    Except PyErr SuiKeyPair :=
  if indata.length = SECP256R1_KEYPAIR_BYTES_LEN then suiKeyPairSECP256R1 dp indata
  else .error .SuiInvalidKeyPair

/-- `SuiKeyPair.serialize`: `base64(scheme tag byte ∥ private key bytes)`. -/
def SuiKeyPair.serialize (kp : SuiKeyPair) : List Char :=
  b64encode (kp.scheme.value :: kp.privKeyBytes)

/-- `keypair_from_keystring`: length check (`SuiInvalidKeystringLength` with
the offending length), base64 decode, dispatch on the first decoded byte to
the scheme's `from_bytes`, `NotImplementedError` on any other tag byte. -/
def keypair_from_keystring (dp : DerivePub) (keystring : List Char) :
    Except PyErr SuiKeyPair :=
  if keystring.length ≠ SUI_KEYPAIR_LEN then
    .error (.SuiInvalidKeystringLength keystring.length)
  else
    match b64decode keystring with
    | none => .error .BinasciiError
    | some [] => .error .IndexError
    | some (tag :: rest) =>
        if tag = SignatureScheme.ED25519.value then
          suiKeyPairED25519FromBytes dp rest
        else if tag = SignatureScheme.SECP256K1.value then
          suiKeyPairSECP256K1FromBytes dp rest
        else if tag = SignatureScheme.SECP256R1.value then
          suiKeyPairSECP256R1FromBytes dp rest
        else .error .NotImplementedError

/-- `SuiKeyPairSECP256R1.from_b64`: after the length check and decode, a
first byte equal to the SECP256R1 tag is routed to
`SuiKeyPairED25519.from_bytes`; anything else raises
`SuiInvalidKeyPair("Scheme not ED25519")`. -/
def suiKeyPairSECP256R1FromB64 (dp : DerivePub) (indata : List Char) :
    Except PyErr SuiKeyPair :=
  if indata.length ≠ SUI_KEYPAIR_LEN then .error .SuiInvalidKeyPair
  else
    match b64decode indata with
    | none => .error .BinasciiError
    | some [] => .error .IndexError
    | some (tag :: rest) =>
        if tag = SignatureScheme.SECP256R1.value then
          suiKeyPairED25519FromBytes dp rest
        else .error .SuiInvalidKeyPair

/-- `SuiPrivateKey.sign_secure`: prepend the 3-byte intent header `[0,0,0]`
to the base64-decoded transaction bytes, sign, and assemble
`scheme tag ∥ signature ∥ public key bytes`. -/
def sign_secure (sig : SigAlg) (scheme : SignatureScheme)
    (privBytes pubBytes : List Nat) (tx_data : List Char) :
    Except PyErr (List Nat) :=
  match b64decode tx_data with
  | none => .error .BinasciiError
  | some dec_tx =>
      .ok (scheme.value :: (sig scheme privBytes (0 :: 0 :: 0 :: dec_tx) ++ pubBytes))

/-- `SuiKeyPair.new_sign_secure`: `sign_secure` on the keypair's own keys,
then base64-encode the compound signature. -/
def new_sign_secure (sig : SigAlg) (kp : SuiKeyPair) (tx_data : List Char) :
    Except PyErr (List Char) :=
  (sign_secure sig kp.scheme kp.privKeyBytes kp.pubKeyBytes tx_data).map b64encode

/-! ## MultiSig aggregate -/

/-- A `SuiPublicKey` as the multisig code consumes it: its scheme and raw key
bytes. -/
structure SuiPublicKeyRec where
  scheme : SignatureScheme
  keyBytes : List Nat
  deriving DecidableEq, Repr

/-- Modelled from the spec: `PublicKey.scheme_and_key` is defined in
`pysui.abstracts`, outside `src/`.  Spec §4.4 feeds, per key, "the key's own
scheme tag byte ∥ raw public key bytes" (also visible in the commented-out
pair of `update` calls in `_msta`). -/
def schemeAndKey (pk : SuiPublicKeyRec) : List Nat :=
  pk.scheme.value :: pk.keyBytes

/-- The state of a constructed `MultiSigPublicKey`: `_scheme` (always
`MULTISIG`), `_threshold`, and the `_pkmaps` list of (public key, weight)
pairs. -/
structure MultiSigPublicKeyState where
  scheme : SignatureScheme
  threshold : Nat
  pkmaps : List (SuiPublicKeyRec × Nat)
  deriving DecidableEq, Repr

/-- `MultiSigPublicKey.__init__`: the guard accepts
`len(pk_keys) <= 10 and len(pk_keys) == len(pk_weights) and
threshold <= len(pk_keys)` (no lower bound on the key count) and raises
`ValueError` otherwise.  The accepting branch executes
`list(zip(pk_keys, weights))`, and the name `weights` is bound nowhere at
module scope (only inside the `if __name__ == "__main__"` demo block), so in
library use the branch raises `NameError` before any state is assigned. -/
def multiSigPublicKeyInit (pk_keys : List SuiPublicKeyRec)
    (pk_weights : List Nat) (threshold : Nat) :
    Except PyErr MultiSigPublicKeyState :=
  if pk_keys.length ≤ 10 ∧ pk_keys.length = pk_weights.length ∧
      threshold ≤ pk_keys.length then
    .error .NameError
  else .error .ValueError

/-- The per-key `update` calls of `_msta`: for each (public key, weight) pair
in order, `scheme_and_key()` bytes then the weight as one byte
(`OverflowError` if a weight exceeds one byte). -/
def mstaKeyBytes : List (SuiPublicKeyRec × Nat) → Except PyErr (List Nat)
  | [] => .ok []
  | (pk, w) :: rest =>
      match toBytes1 w with
      | .error e => .error e
      | .ok wb =>
          match mstaKeyBytes rest with
          | .error e => .error e
          | .ok tl => .ok (schemeAndKey pk ++ wb ++ tl)

/-- `_msta`: SHA3-256 over scheme tag byte, threshold byte and the per-key
bytes fed in declared order, then `binascii.hexlify` of the first 20 digest
bytes.  The hash is the external `hashlib` primitive, passed in as `sha3`;
the sequential `update` calls amount to hashing the concatenation. -/
def msta (sha3 : List Nat → List Nat) (msig : MultiSigPublicKeyState) :
    Except PyErr (List Char) :=
  match toBytes1 msig.scheme.value with
  | .error e => .error e
  | .ok sb =>
      match toBytes1 msig.threshold with
      | .error e => .error e
      | .ok tb =>
          match mstaKeyBytes msig.pkmaps with
          | .error e => .error e
          | .ok kb => .ok (hexlify ((sha3 (sb ++ tb ++ kb)).take 20))

/-- The address the claim describes, written from the spec's words (§4.4):
lowercase hex of the first 20 bytes of `SHA3-256(multisig tag ∥ threshold ∥
(tagᵢ ∥ key bytesᵢ ∥ weightᵢ for each pair in order))`. -/
def mstaSpecAddress (sha3 : List Nat → List Nat)
    (msig : MultiSigPublicKeyState) : List Char :=
  hexlify ((sha3 (3 :: msig.threshold ::
    msig.pkmaps.flatMap
      (fun pw => pw.1.scheme.value :: (pw.1.keyBytes ++ [pw.2])))).take 20)

/-! ## SECP256R1 low-S adjustment -/

/-- The literal `_s_max` of `SuiPrivateKeySECP256R1.sign`: the NIST P-256
group order. -/
def p256Order : Nat :=
  0xFFFFFFFF00000000FFFFFFFFFFFFFFFFBCE6FAADA7179E84F3B9CAC2FC632551

/-- Fuel-driven binary length (fuel-based so that it reduces inside the
kernel, unlike the well-founded `Nat.log2`). -/
def bitLenAux : Nat → Nat → Nat
  | 0, _ => 0
  | fuel + 1, n => if n = 0 then 0 else bitLenAux fuel (n / 2) + 1

/-- The binary length of `n` (0 for 0). -/
def bitLen (n : Nat) : Nat := bitLenAux n n

/-- Round-to-nearest-even at 53 significant bits: the value of the IEEE-754
double `float(n)` for `n` below the overflow range, as produced by Python's
int-to-float conversion. -/
def round53 (n : Nat) : Nat :=
  if n < 2 ^ 53 then n
  else
    let k := bitLen n - 53
    let q := n / 2 ^ k
    let r := n % 2 ^ k
    if 2 ^ (k - 1) < r ∨ (r = 2 ^ (k - 1) ∧ q % 2 = 1) then (q + 1) * 2 ^ k
    else q * 2 ^ k

/-- The exact value of the Python float expression `_s_max / 2` (true
division of an int by 2 yields the correctly rounded double, which is
`float(_s_max) / 2` exactly; `float(_s_max)` has its low 203 bits zero, so
halving stays an integer). -/
def pyHalfSMax : Nat := round53 p256Order / 2

/-- The `s` adjustment of the inner `_sigencode_string`:
`if s_int > _s_max / 2: s_int = _s_max - s_int` — a Python int-float
comparison against `pyHalfSMax`, exact on both sides. -/
def sigencodeSAdjust (s_int : Nat) : Nat :=
  if pyHalfSMax < s_int then p256Order - s_int else s_int

/-- Big-endian fixed-width byte encoding (for
`ecdsa.util.sigencode_string`). -/
def toBEBytes (w n : Nat) : List Nat := (toLEBytes w n).reverse

/-- `_sigencode_string(r_int, s_int, order)` for P-256: the adjusted `s`
and `r` each as 32 big-endian bytes, `r ∥ s`. -/
def secp256r1SigencodeString (r_int s_int : Nat) : List Nat :=
  toBEBytes 32 r_int ++ toBEBytes 32 (sigencodeSAdjust s_int)

/-! ## Claim theorems -/

/-- C1: Encoding a `BCSTransferSui` whose recipient is the 32-zero-byte
address and whose amount is absent yields 32 zero bytes followed by the single
byte 0x00 (33 bytes total); with amount present and equal to 1000, the 32
address bytes followed by 0x01 and the 8-byte little-endian encoding of 1000
(41 bytes total). -/
theorem c1_transfer_sui_encoding :
    encodeBCSTransferSui (List.replicate 32 0) none = List.replicate 32 0 ++ [0] ∧
    (encodeBCSTransferSui (List.replicate 32 0) none).length = 33 ∧
    encodeBCSTransferSui (List.replicate 32 0) (some 1000) =
      List.replicate 32 0 ++ 1 :: toLEBytes 8 1000 ∧
    toLEBytes 8 1000 = [232, 3, 0, 0, 0, 0, 0, 0] ∧
    (encodeBCSTransferSui (List.replicate 32 0) (some 1000)).length = 41 := by
  decide

/-- The compound signature `new_sign_secure` assembles before base64-encoding:
scheme tag byte, raw signature over the intent-prefixed message, raw public
key bytes. -/
def compoundSig (sig : SigAlg) (kp : SuiKeyPair) (m : List Nat) : List Nat :=
  kp.scheme.value :: (sig kp.scheme kp.privKeyBytes (0 :: 0 :: 0 :: m) ++ kp.pubKeyBytes)

/-- C2: for a keypair of a supported scheme and a base64 transaction string
`t` decoding to `m`, `new_sign_secure` returns the base64 text of
`scheme tag ∥ sign([0,0,0] ∥ m) ∥ public key bytes`; that compound buffer
decodes back from the returned text and has length 1 + 64 + 32 = 97 for
ED25519 and 1 + 64 + 33 = 98 for SECP256K1/SECP256R1. -/
theorem c2_new_sign_secure (sig : SigAlg) (kp : SuiKeyPair) (t : List Char)
    (m : List Nat)
    (hdec : b64decode t = some m)
    (hsig : (sig kp.scheme kp.privKeyBytes (0 :: 0 :: 0 :: m)).length = 64)
    (hsigb : ∀ x ∈ sig kp.scheme kp.privKeyBytes (0 :: 0 :: 0 :: m), x < 256)
    (hpub : kp.pubKeyBytes.length = if kp.scheme = .ED25519 then 32 else 33)
    (hpubb : ∀ x ∈ kp.pubKeyBytes, x < 256)
    (hsch : kp.scheme ≠ .MULTISIG) :
    new_sign_secure sig kp t = .ok (b64encode (compoundSig sig kp m)) ∧
    b64decode (b64encode (compoundSig sig kp m)) = some (compoundSig sig kp m) ∧
    (compoundSig sig kp m).length = (if kp.scheme = .ED25519 then 97 else 98) := by
  obtain ⟨sch, priv, pub⟩ := kp
  simp only at hdec hsig hsigb hpub hpubb hsch
  refine ⟨?_, ?_, ?_⟩
  · simp [new_sign_secure, sign_secure, hdec, compoundSig, Except.map]
  · apply b64decode_b64encode
    intro x hx
    simp only [compoundSig] at hx
    rcases List.mem_cons.1 hx with hx | hx
    · subst hx
      cases sch <;> simp [SignatureScheme.value]
    · rcases List.mem_append.1 hx with hx | hx
      · exact hsigb x hx
      · exact hpubb x hx
  · simp only [compoundSig, List.length_cons, List.length_append, hsig]
    cases sch <;> simp_all

/-- C2 witness: a concrete ED25519 keypair, the all-zero 64-byte "signature"
primitive and the empty transaction. -/
theorem c2_witness :
    new_sign_secure (fun _ _ _ => List.replicate 64 0)
        ⟨.ED25519, List.replicate 32 0, List.replicate 32 0⟩ [] =
      .ok (b64encode (compoundSig (fun _ _ _ => List.replicate 64 0)
        ⟨.ED25519, List.replicate 32 0, List.replicate 32 0⟩ [])) ∧
    (compoundSig (fun _ _ _ => List.replicate 64 0)
        ⟨.ED25519, List.replicate 32 0, List.replicate 32 0⟩ []).length = 97 := by
  have h := c2_new_sign_secure (fun _ _ _ => List.replicate 64 0)
    ⟨.ED25519, List.replicate 32 0, List.replicate 32 0⟩ [] []
    rfl (by decide) (by decide) (by decide) (by decide) (by decide)
  exact ⟨h.1, by simpa using h.2.2⟩

/-- C3: serializing a keypair of any of the three supported schemes and
parsing the keystring back yields a keypair with the same scheme, private key
bytes and public key bytes. -/
theorem c3_keystring_roundtrip (dp : DerivePub) (kp : SuiKeyPair)
    (hsch : kp.scheme = .ED25519 ∨ kp.scheme = .SECP256K1 ∨ kp.scheme = .SECP256R1)
    (hpriv : kp.privKeyBytes.length = 32)
    (hprivb : ∀ x ∈ kp.privKeyBytes, x < 256)
    (hpub : kp.pubKeyBytes = dp kp.scheme kp.privKeyBytes)
    (hpublen : (dp kp.scheme kp.privKeyBytes).length =
      if kp.scheme = .ED25519 then 32 else 33) :
    keypair_from_keystring dp kp.serialize = .ok kp := by
  obtain ⟨s, priv, pub⟩ := kp
  simp only at hpriv hprivb hpub hpublen hsch
  have hlen : (b64encode (s.value :: priv)).length = 44 := by
    rw [b64encode_length]
    simp [hpriv]
  have hbound : ∀ x ∈ s.value :: priv, x < 256 := by
    intro x hx
    rcases List.mem_cons.1 hx with hx | hx
    · cases s <;> simp_all [SignatureScheme.value]
    · exact hprivb x hx
  have hrt := b64decode_b64encode _ hbound
  rcases hsch with h | h | h <;> subst h <;>
    simp_all [keypair_from_keystring, SuiKeyPair.serialize, SUI_KEYPAIR_LEN,
      hrt, SignatureScheme.value, suiKeyPairED25519FromBytes,
      suiKeyPairSECP256K1FromBytes, suiKeyPairSECP256R1FromBytes,
      suiKeyPairED25519, suiKeyPairSECP256K1, suiKeyPairSECP256R1,
      ED25519_KEYPAIR_BYTES_LEN, SECP256K1_KEYPAIR_BYTES_LEN,
      SECP256R1_KEYPAIR_BYTES_LEN, ED25519_PRIVATEKEY_BYTES_LEN,
      SECP256K1_PRIVATEKEY_BYTES_LEN, SECP256R1_PRIVATEKEY_BYTES_LEN,
      ED25519_PUBLICKEY_BYTES_LEN, SECP256K1_PUBLICKEY_BYTES_LEN,
      SECP256R1_PUBLICKEY_BYTES_LEN]

/-- C3 witness: a concrete ED25519 keypair with an all-zero private key and
the derivation primitive fixed to constant zero keys of the right length. -/
theorem c3_witness :
    keypair_from_keystring
        (fun s _ => List.replicate (if s = .ED25519 then 32 else 33) 0)
        (SuiKeyPair.serialize ⟨.ED25519, List.replicate 32 0, List.replicate 32 0⟩) =
      .ok ⟨.ED25519, List.replicate 32 0, List.replicate 32 0⟩ :=
  c3_keystring_roundtrip _ _ (Or.inl rfl) (by decide) (by decide) (by decide)
    (by decide)

/-- C4 helper: the per-key `update` calls feed exactly the spec's per-pair
bytes in order whenever every weight fits in one byte. -/
theorem mstaKeyBytes_flatMap (l : List (SuiPublicKeyRec × Nat))
    (h : ∀ pw ∈ l, pw.2 < 256) :
    mstaKeyBytes l =
      .ok (l.flatMap (fun pw => pw.1.scheme.value :: (pw.1.keyBytes ++ [pw.2]))) := by
  induction l with
  | nil => rfl
  | cons pw rest ih =>
      obtain ⟨pk, w⟩ := pw
      have hw : w < 256 := h (pk, w) (by simp)
      have hrest : ∀ pw ∈ rest, pw.2 < 256 := fun pw hpw => h pw (by simp [hpw])
      simp [mstaKeyBytes, toBytes1, hw, ih hrest, schemeAndKey]


/-- C4: for every multisig state (tag `MULTISIG`, threshold and weights each
one byte), `_msta` returns exactly the lowercase-hex rendering of the first
20 bytes of `SHA3-256(multisig tag ∥ threshold ∥ (keyᵢ tag ∥ keyᵢ bytes ∥
weightᵢ, in declared order))` — in particular the address is a function of
(keys, weights, threshold) in order. -/
theorem c4_msta_address (sha3 : List Nat → List Nat)
    (msig : MultiSigPublicKeyState)
    (hsch : msig.scheme = .MULTISIG)
    (hthr : msig.threshold < 256)
    (hw : ∀ pw ∈ msig.pkmaps, pw.2 < 256) :
    msta sha3 msig = .ok (mstaSpecAddress sha3 msig) := by
  simp [msta, mstaSpecAddress, hsch, toBytes1, hthr, SignatureScheme.value,
    mstaKeyBytes_flatMap msig.pkmaps hw]

/-- C4 witness: the identity "hash" and a one-key multisig state. -/
theorem c4_witness :
    msta (fun l => l) ⟨.MULTISIG, 1, [(⟨.ED25519, List.replicate 32 0⟩, 1)]⟩ =
      .ok (mstaSpecAddress (fun l => l)
        ⟨.MULTISIG, 1, [(⟨.ED25519, List.replicate 32 0⟩, 1)]⟩) :=
  c4_msta_address _ _ rfl (by decide) (by decide)

/-- C5: the low-S claim fails on the code.  The comparison threshold
`_s_max / 2` is Python float division, whose exact value `pyHalfSMax` lies
strictly below `(n-1)/2`; an ECDSA `s` equal to `(n-1)/2` — already low —
is therefore "adjusted" to `(n+1)/2`, which is strictly greater than
`curveOrder/2`, and is what `_sigencode_string` then encodes. -/
theorem c5_low_s_violation :
    pyHalfSMax < (p256Order - 1) / 2 ∧
    2 * sigencodeSAdjust ((p256Order - 1) / 2) = p256Order + 1 ∧
    secp256r1SigencodeString 1 ((p256Order - 1) / 2) =
      toBEBytes 32 1 ++ toBEBytes 32 ((p256Order + 1) / 2) := by
  set_option maxRecDepth 8000 in decide

/-- C6: `MultiSigPublicKey` construction never succeeds in library use: the
accepting branch of the guard evaluates the unbound module-level name
`weights` (`list(zip(pk_keys, weights))`) and raises `NameError`, so a fully
valid input errors instead of storing the key map; the guard also lacks the
claimed `1 ≤ len(keys)` lower bound, so an empty key set reaches the same
branch rather than being rejected with `ValueError`. -/
theorem c6_multisig_init_never_constructs :
    multiSigPublicKeyInit [⟨.ED25519, List.replicate 32 0⟩] [1] 1 =
      .error .NameError ∧
    multiSigPublicKeyInit [] [] 0 = .error .NameError ∧
    multiSigPublicKeyInit [⟨.ED25519, List.replicate 32 0⟩] [1, 2] 1 =
      .error .ValueError := by
  decide

/-- C7: `keypair_from_keystring` rejects every string whose length differs
from the keystring length with `SuiInvalidKeystringLength`, and every
correct-length keystring whose decoded first byte is not a supported scheme
tag with the unknown-scheme error (`NotImplementedError` in the source); in
neither case is a keypair produced. -/
theorem c7_keystring_errors (dp : DerivePub) :
    (∀ s : List Char, s.length ≠ SUI_KEYPAIR_LEN →
      keypair_from_keystring dp s = .error (.SuiInvalidKeystringLength s.length)) ∧
    (∀ (s : List Char) (tag : Nat) (rest : List Nat),
      s.length = SUI_KEYPAIR_LEN → b64decode s = some (tag :: rest) →
      tag ≠ 0 → tag ≠ 1 → tag ≠ 2 →
      keypair_from_keystring dp s = .error .NotImplementedError) := by
  constructor
  · intro s hs
    simp [keypair_from_keystring, hs]
  · intro s tag rest hlen hdec h0 h1 h2
    simp [keypair_from_keystring, hlen, hdec, SignatureScheme.value, h0, h1, h2]

/-- C7 witness: the empty string (wrong length) and a 44-character keystring
with decoded tag byte 5. -/
theorem c7_witness :
    keypair_from_keystring (fun _ _ => []) [] =
      .error (.SuiInvalidKeystringLength 0) ∧
    keypair_from_keystring (fun _ _ => []) (b64encode (5 :: List.replicate 32 0)) =
      .error .NotImplementedError :=
  ⟨(c7_keystring_errors _).1 [] (by decide),
   (c7_keystring_errors _).2 (b64encode (5 :: List.replicate 32 0)) 5
     (List.replicate 32 0) (by decide)
     (b64decode_b64encode (5 :: List.replicate 32 0) (by decide))
     (by decide) (by decide) (by decide)⟩

/-- C8: `variant_for_index` raises `IndexError` for every index at or above
the declared variant count — 9 for `BCSSingleTransaction`, 1 for
`TransactionData`.  (At `index == len` the off-by-one guard passes but the
list subscript itself raises `IndexError`.) -/
theorem c8_variant_for_index :
    (∀ i : Nat, 9 ≤ i →
      variantForIndex bcsSingleTransactionEnums i = .error .IndexError) ∧
    (∀ i : Nat, 1 ≤ i →
      variantForIndex transactionDataEnums i = .error .IndexError) := by
  constructor
  · intro i hi
    have hnone : bcsSingleTransactionEnums[i]? = none := by
      apply List.getElem?_eq_none
      simp only [bcsSingleTransactionEnums, List.length_cons, List.length_nil]
      omega
    simp [variantForIndex, hnone]
  · intro i hi
    have hnone : transactionDataEnums[i]? = none := by
      apply List.getElem?_eq_none
      simp only [transactionDataEnums, List.length_cons, List.length_nil]
      omega
    simp [variantForIndex, hnone]

/-- C8 witness: the boundary indices 9 and 1 themselves. -/
theorem c8_witness :
    variantForIndex bcsSingleTransactionEnums 9 = .error .IndexError ∧
    variantForIndex transactionDataEnums 1 = .error .IndexError :=
  ⟨(c8_variant_for_index).1 9 (by decide), (c8_variant_for_index).2 1 (by decide)⟩

/-- C9: `SuiKeyPairSECP256R1.from_b64` routes every correct-length string
whose decoded tag byte is the SECP256R1 tag to
`SuiKeyPairED25519.from_bytes` on the remaining bytes — any keypair it ever
returns has scheme ED25519, never SECP256R1 — and raises `SuiInvalidKeyPair`
for every other decoded tag byte. -/
theorem c9_secp256r1_from_b64 (dp : DerivePub) (s : List Char) (tag : Nat)
    (rest : List Nat)
    (hlen : s.length = SUI_KEYPAIR_LEN)
    (hdec : b64decode s = some (tag :: rest)) :
    (tag = 2 →
      suiKeyPairSECP256R1FromB64 dp s = suiKeyPairED25519FromBytes dp rest) ∧
    (∀ kp, suiKeyPairSECP256R1FromB64 dp s = .ok kp → kp.scheme = .ED25519) ∧
    (tag ≠ 2 → suiKeyPairSECP256R1FromB64 dp s = .error .SuiInvalidKeyPair) := by
  refine ⟨?_, ?_, ?_⟩
  · intro htag
    simp [suiKeyPairSECP256R1FromB64, hlen, hdec, htag, SignatureScheme.value,
      SUI_KEYPAIR_LEN]
  · intro kp hkp
    simp only [suiKeyPairSECP256R1FromB64, hlen, hdec] at hkp
    rw [if_neg (by simp)] at hkp
    by_cases htag : tag = SignatureScheme.SECP256R1.value
    · rw [if_pos htag] at hkp
      simp only [suiKeyPairED25519FromBytes, suiKeyPairED25519] at hkp
      split at hkp
      · split at hkp
        · split at hkp
          · cases hkp
            rfl
          · cases hkp
        · cases hkp
      · cases hkp
    · rw [if_neg htag] at hkp
      cases hkp
  · intro htag
    simp [suiKeyPairSECP256R1FromB64, hlen, hdec, SignatureScheme.value, htag,
      SUI_KEYPAIR_LEN]

/-- C9 witness: a 44-character string whose decoded bytes are the SECP256R1
tag followed by 32 zero bytes. -/
theorem c9_witness :
    suiKeyPairSECP256R1FromB64 (fun _ _ => List.replicate 32 0)
        (b64encode (2 :: List.replicate 32 0)) =
      suiKeyPairED25519FromBytes (fun _ _ => List.replicate 32 0)
        (List.replicate 32 0) :=
  (c9_secp256r1_from_b64 _ _ 2 _ (by decide)
    (b64decode_b64encode (2 :: List.replicate 32 0) (by decide))).1 rfl

/-- C10: decoding a `Pure` whose `Data` list starts with count byte 0 raises
`ZeroDivisionError`: `post_deser` computes `len(darray) % counter` with
`counter = 0` and no guard. -/
theorem c10_pure_decode_zero_count (ds : List Nat)
    (h0 : ds.head? = some 0) (hlen : ds.length < 128) :
    pureDecode (ds.length :: ds) = .error .ZeroDivisionError := by
  cases ds with
  | nil => cases h0
  | cons a tail =>
      have ha : a = 0 := by simpa using h0
      subst ha
      simp only [List.length_cons] at hlen
      simp [pureDecode, decodeUleb, hlen, purePostDeser, List.take_succ_cons,
        List.take_length]

/-- C10 witness: the two-byte `Pure` payload `[1, 0]` — a one-element `Data`
list whose count byte is 0. -/
theorem c10_witness : pureDecode [1, 0] = .error .ZeroDivisionError :=
  c10_pure_decode_zero_count [0] rfl (by decide)

end PysuiModel
